import Mathlib

/-!
Verification development for the backport execution core of the
`agent-backport` repository.

The Lean definitions below are shallow embeddings of the TypeScript source:

* `src/lib/jobs.ts` — the in-memory job store (`updateJob`, `addJobLog`);
* `src/lib/sandbox.ts` — the sandbox git executor (`executeBackport`) and
  the per-file conflict resolver (`resolveConflictWithAI`);
* `src/workflows/backport.ts` — the workflow (`backportPullRequest`);
* the webhook handler (`handleIssueComment`).

I/O against the outside world (git exit codes, oracle answers, file
contents, GitHub API results) is modelled by explicit environment records;
the embedded functions are pure and total, and produce, besides the result
the source returns, a trace of the externally visible actions they perform.
Confidence scores are embedded as rationals so the 0.7 / 0.8 thresholds
are exact.
-/

namespace AgentBackport

/-! ## Job store (src/lib/jobs.ts) -/

/-- Job status, from the union type in `src/lib/jobs.ts`. -/
inductive JobStatus where
  | pending
  | inProgress
  | completed
  | failed
deriving Repr, DecidableEq

/-- A status from which the spec allows no further transition. -/
def JobStatus.isTerminal : JobStatus → Bool
  | .completed => true
  | .failed => true
  | _ => false

/-- The `BackportJob` record of `src/lib/jobs.ts`.  `Date` values are
embedded as natural-number timestamps. -/
structure BackportJob where
  id : String
  repository : String
  installationId : Nat
  sourcePR : Nat
  targetBranch : String
  status : JobStatus
  createdAt : Nat
  updatedAt : Nat
  requestedBy : String
  commentId : Nat
  resultPR : Option Nat
  error : Option String
  logs : List String
deriving Repr, DecidableEq

/-- The in-memory `jobStore` map, embedded as an association list keyed by
job id (the JS `Map` iteration order is insertion order, which the list
preserves). -/
abbrev JobStore := List (String × BackportJob)

/-- `jobStore.get(id)` on the association-list embedding. -/
def storeGet : JobStore → String → Option BackportJob
  | [], _ => none
  | (k, v) :: rest, id => if k = id then some v else storeGet rest id

/-- `jobStore.set(id, job)`: replaces the binding for an existing key,
appends a new binding otherwise. -/
def storeSet : JobStore → String → BackportJob → JobStore
  | [], id, job => [(id, job)]
  | (k, v) :: rest, id, job =>
    if k = id then (k, job) :: rest else (k, v) :: storeSet rest id job

/-- The partial-update argument of `updateJob`
(`Partial<Omit<BackportJob, "id" | "createdAt" | "logs">>`): a field that
is `none` is absent from the update object.  Only the fields actual
callers pass are carried. -/
structure JobUpdates where
  status : Option JobStatus
  resultPR : Option Nat
  error : Option String
deriving Repr, DecidableEq

/-- The object spread `{ ...existing, ...updates, updatedAt: new Date() }`
from `updateJob`. -/
def mergeJob (j : BackportJob) (u : JobUpdates) (now : Nat) : BackportJob :=
  { j with
    status := u.status.getD j.status
    resultPR := u.resultPR.or j.resultPR
    error := u.error.or j.error
    updatedAt := now }

/-- `updateJob` from `src/lib/jobs.ts`: looks the job up, returns `none`
and leaves the store unchanged when the id is unknown, otherwise merges
the updates, bumps `updatedAt` and writes the merged job back. -/
def updateJob (store : JobStore) (id : String) (u : JobUpdates) (now : Nat) :
    Option BackportJob × JobStore :=
  match storeGet store id with
  | none => (none, store)
  | some j =>
    let j' := mergeJob j u now
    (some j', storeSet store id j')

/-- `addJobLog` from `src/lib/jobs.ts`: builds the entry
`"[" ++ iso-timestamp ++ "] " ++ message`, then appends it to the job's
log when the id is known and does nothing otherwise.  `now` is the
ISO-rendered timestamp, `nowT` the timestamp written to `updatedAt`. -/
def addJobLog (store : JobStore) (id : String) (now : String) (nowT : Nat)
    (message : String) : JobStore :=
  match storeGet store id with
  | none => store
  | some job =>
    storeSet store id
      { job with
        logs := job.logs ++ ["[" ++ now ++ "] " ++ message]
        updatedAt := nowT }

/-! ## Per-file conflict resolution (src/lib/sandbox.ts, `resolveConflictWithAI`) -/

/-- The scan state of the marker-parsing loop in `resolveConflictWithAI`
(`inConflict`, `conflictSection`, `ourSection`, `theirSection`). -/
structure ScanState where
  inConflict : Bool
  conflictSection : String
  ourSection : String
  theirSection : String
deriving Repr, DecidableEq

/-- `pat` occurs at the start of `cs`. -/
def charsLead : List Char → List Char → Bool
  | [], _ => true
  | _ :: _, [] => false
  | a :: pat, b :: cs => a = b && charsLead pat cs

/-- `line.startsWith(pat)` (JS semantics, on the character lists). -/
def strStartsWith (s pat : String) : Bool :=
  charsLead pat.toList s.toList

/-- `content.split("\n")` (JS semantics): split at every newline
character, keeping empty segments. -/
def splitLinesAux : List Char → List Char → List String
  | [], acc => [String.mk acc.reverse]
  | c :: cs, acc =>
    if c = '\n' then String.mk acc.reverse :: splitLinesAux cs []
    else splitLinesAux cs (c :: acc)

def splitLines (s : String) : List String :=
  splitLinesAux s.toList []

/-- One iteration of the `for (const line of lines)` loop in
`resolveConflictWithAI`. -/
def scanLine (s : ScanState) (line : String) : ScanState :=
  if strStartsWith line "<<<<<<<" then
    { inConflict := true, conflictSection := "", ourSection := "", theirSection := "" }
  else if strStartsWith line "=======" && s.inConflict then
    { s with ourSection := s.conflictSection, conflictSection := "" }
  else if strStartsWith line ">>>>>>>" && s.inConflict then
    { s with theirSection := s.conflictSection, inConflict := false }
  else if s.inConflict then
    { s with conflictSection := s.conflictSection ++ line ++ "\n" }
  else s

/-- The marker-parsing loop of `resolveConflictWithAI`: split the content
on newlines, fold `scanLine` over the lines, and return the final
`(ourSection, theirSection)` pair. -/
def conflictSections (content : String) : String × String :=
  let final := (splitLines content).foldl scanLine
    { inConflict := false, conflictSection := "", ourSection := "", theirSection := "" }
  (final.ourSection, final.theirSection)

/-- `pat` occurs somewhere within `cs`. -/
def charsWithin (pat : List Char) (cs : List Char) : Bool :=
  match cs with
  | [] => charsLead pat []
  | _ :: rest => charsLead pat cs || charsWithin pat rest

/-- `content.includes(pat)` (JS substring containment). -/
def strContains (s pat : String) : Bool :=
  charsWithin pat.toList s.toList

/-- The defensive marker check of `resolveConflictWithAI`:
`content.includes("<<<<<<<") && content.includes(">>>>>>>")`. -/
def hasConflictMarkers (content : String) : Bool :=
  strContains content "<<<<<<<" && strContains content ">>>>>>>"

/-- Environment of one `resolveConflictWithAI` call: the outcome of the
file read, the file's content, and the oracle's `ConflictResolution`
answer (`resolvedContent`, `explanation`, `confidence`) or the fact that
the oracle call threw. -/
structure ResolutionEnv where
  readOk : Bool
  content : String
  oracleThrows : Bool
  resolvedContent : String
  explanation : String
  confidence : ℚ

/-- The argument tuple `suggestConflictResolution` is invoked with:
the full marked content, the `theirSection` ("the changes we're trying to
cherry-pick"), the `ourSection` ("the target branch content"), and the
change intent from the diff analysis. -/
structure OracleCall where
  markedContent : String
  theirs : String
  ours : String
  intent : String
deriving Repr, DecidableEq

/-- Outcome of one embedded `resolveConflictWithAI` call: the boolean the
source returns, the oracle invocation it performed (if it reached the
oracle), and whether the proposed content was written and staged. -/
structure ResolveOutcome where
  resolved : Bool
  oracleCall : Option OracleCall
  applied : Bool
deriving Repr, DecidableEq

/-- `resolveConflictWithAI` from `src/lib/sandbox.ts`: read the file
(false on failure), check for conflict markers (false when absent), scan
the marker triads, call the oracle once with the final `(ours, theirs)`
pair, reject when `resolution.confidence < 0.7`, otherwise write the
resolved content and stage the file.  An exception anywhere is caught and
returned as `false`. -/
def resolveConflictWithAI (env : ResolutionEnv) (intent : String) : ResolveOutcome :=
  if !env.readOk then ⟨false, none, false⟩
  else if !hasConflictMarkers env.content then ⟨false, none, false⟩
  else
    let sections := conflictSections env.content
    let call : OracleCall :=
      { markedContent := env.content
        theirs := sections.2
        ours := sections.1
        intent := intent }
    if env.oracleThrows then ⟨false, some call, false⟩
    else if env.confidence < mkRat 7 10 then ⟨false, some call, false⟩
    else ⟨true, some call, true⟩

/-! ## Sandbox git executor (src/lib/sandbox.ts, `executeBackport`) -/

/-- A commit reference, as in `BackportConfig.commits`. -/
structure Commit where
  sha : String
  message : String
deriving Repr, DecidableEq

/-- The `BackportConfig` of `src/lib/sandbox.ts`.  Of the `diffAnalysis`
only the `intent` field is read by the executor, so only it is carried. -/
structure BackportConfig where
  repository : String
  targetBranch : String
  commits : List Commit
  prNumber : Nat
  intent : String

/-- The `BackportExecutionResult` of `src/lib/sandbox.ts`. -/
structure BackportExecutionResult where
  success : Bool
  branch : Option String
  error : Option String
  conflictFiles : Option (List String)
  resolvedConflicts : Option Nat
deriving Repr, DecidableEq

/-- Externally visible actions the executor performs, in order. -/
inductive Event where
  | created
  | clone
  | fetchBranch
  | checkout
  | fetchCommit (sha : String)
  | cherryPick (sha : String)
  | resolveFile (file : String)
  | abortCherryPick
  | commitCreated (sha : String) (message : String)
  | alreadyApplied (sha : String)
  | renameBranch (name : String)
  | deleteRemote (name : String)
  | push (name : String)
  | stop
deriving Repr, DecidableEq

/-- Environment of one iteration of the cherry-pick loop: exit status of
`git cherry-pick --no-commit`, the `UU`/`AA`/`DD` files that
`git status --porcelain` reports when it failed, the per-file resolution
environments, the exit status of `git commit`, and whether the working
tree is clean after a failed commit (the "already applied" case). -/
structure CommitStep where
  cherryPickOk : Bool
  cherryPickStderr : String
  conflictFiles : List String
  fileEnv : String → ResolutionEnv
  commitOk : Bool
  commitStderr : String
  postStatusClean : Bool

/-- Environment of one `executeBackport` run: exit statuses and error
text for each git invocation, indexed where needed by sha or by the
position of the commit in the input list.  `stopFails` records whether
`sandbox.stop()` throws in the `finally` block; `deleteRemoteOk` is the
exit status of the stale-branch delete (the source ignores it except for
logging). -/
structure SandboxEnv where
  createOk : Bool
  createErrMsg : String
  cloneOk : Bool
  cloneStderr : String
  fetchBranchOk : Bool
  fetchBranchStderr : String
  checkoutOk : Bool
  checkoutStderr : String
  fetchCommitOk : String → Bool
  fetchCommitStderr : String → String
  step : Nat → CommitStep
  deleteRemoteOk : Bool
  pushOk : Bool
  pushStderr : String
  stopFails : Bool

/-- Result of the per-commit conflict-file loop: either all files
resolved (with the events and the number resolved) or the name of the
first unresolved file. -/
inductive FilesResult where
  | ok (events : List Event) (resolved : Nat)
  | err (file : String) (events : List Event)
deriving Repr

/-- Result of one iteration (or of the rest) of the cherry-pick loop:
events, conflicts auto-resolved, and the last nonempty conflict set, or
the thrown error message. -/
inductive StepResult where
  | ok (events : List Event) (resolved : Nat) (conflicts : List String)
  | err (msg : String) (events : List Event)
deriving Repr

/-- Result of the fetch-each-commit loop. -/
inductive FetchResult where
  | ok (events : List Event)
  | err (msg : String) (events : List Event)
deriving Repr

/-- The `for (const file of conflicting)` loop of `executeBackport`:
resolve each file in order; on the first unresolved file run
`git cherry-pick --abort` and throw naming that file. -/
def processFiles (intent : String) (fenv : String → ResolutionEnv) :
    List String → FilesResult
  | [] => .ok [] 0
  | f :: rest =>
    if (resolveConflictWithAI (fenv f) intent).resolved then
      match processFiles intent fenv rest with
      | .ok evs n => .ok (Event.resolveFile f :: evs) (n + 1)
      | .err g evs => .err g (Event.resolveFile f :: evs)
    else
      .err f [Event.resolveFile f, Event.abortCherryPick]

/-- The stage-and-commit tail of one cherry-pick iteration: `git add -A`
then `git commit`; a failed commit with a clean tree is "already
applied", a failed commit with a dirty tree throws. -/
def commitPhase (st : CommitStep) (c : Commit) (evs : List Event)
    (r : Nat) (fs : List String) : StepResult :=
  if st.commitOk then
    .ok (evs ++ [Event.commitCreated c.sha
      (c.message ++ "\n\n(cherry picked from commit " ++ c.sha ++ ")")]) r fs
  else if st.postStatusClean then
    .ok (evs ++ [Event.alreadyApplied c.sha]) r fs
  else
    .err ("Failed to commit cherry-picked changes: " ++ st.commitStderr) evs

/-- One iteration of the cherry-pick loop of `executeBackport` for the
commit `c`: attempt the pick; on failure enumerate the conflicted files
and run the resolution loop (an empty conflict set is a genuine tool
error); then stage and commit. -/
def processCommit (intent : String) (st : CommitStep) (c : Commit) : StepResult :=
  if st.cherryPickOk then
    commitPhase st c [Event.cherryPick c.sha] 0 []
  else if st.conflictFiles.isEmpty then
    .err ("Cherry-pick failed: " ++ st.cherryPickStderr) [Event.cherryPick c.sha]
  else
    match processFiles intent st.fileEnv st.conflictFiles with
    | .err f _evs =>
      .err ("Could not resolve merge conflict in " ++ f ++ ". Manual intervention required.")
        (Event.cherryPick c.sha :: _evs)
    | .ok evs n => commitPhase st c (Event.cherryPick c.sha :: evs) n st.conflictFiles

/-- The whole cherry-pick loop, from the commit at position `i` on.  The
`conflictFiles` variable of the source keeps the last nonempty conflict
set, and `resolvedConflicts` accumulates across commits. -/
def processCommits (intent : String) (step : Nat → CommitStep) :
    Nat → List Commit → StepResult
  | _, [] => .ok [] 0 []
  | i, c :: rest =>
    match processCommit intent (step i) c with
    | .err m evs => .err m evs
    | .ok evs r fs =>
      match processCommits intent step (i + 1) rest with
      | .err m evs2 => .err m (evs ++ evs2)
      | .ok evs2 r2 fs2 =>
        .ok (evs ++ evs2) (r + r2) (if fs2.isEmpty then fs else fs2)

/-- The fetch-each-commit loop preceding the cherry-picks: any failed
fetch throws naming the short sha. -/
def fetchCommitsLoop (fOk : String → Bool) (fErr : String → String) :
    List Commit → FetchResult
  | [] => .ok []
  | c :: rest =>
    if fOk c.sha then
      match fetchCommitsLoop fOk fErr rest with
      | .ok evs => .ok (Event.fetchCommit c.sha :: evs)
      | .err m evs => .err m (Event.fetchCommit c.sha :: evs)
    else
      .err ("Failed to fetch commit " ++ c.sha.take 7 ++ ": " ++ fErr c.sha)
        [Event.fetchCommit c.sha]

/-- The canonical backport branch name
`backport-pr-<prNumber>-to-<targetBranch>`. -/
def backportBranch (cfg : BackportConfig) : String :=
  "backport-pr-" ++ toString cfg.prNumber ++ "-to-" ++ cfg.targetBranch

/-- The failure value the `catch` block of `executeBackport` returns. -/
def mkFail (msg : String) : BackportExecutionResult :=
  { success := false, branch := none, error := some msg
    conflictFiles := none, resolvedConflicts := none }

/-- Body of the `try` block of `executeBackport` after the sandbox is up:
clone, fetch the target branch, check out the working branch, fetch the
commits, run the cherry-pick loop, rename the working branch, delete any
stale remote branch (exit status ignored), and push. -/
def sandboxPhase (cfg : BackportConfig) (env : SandboxEnv) :
    BackportExecutionResult × List Event :=
  if !env.cloneOk then
    (mkFail ("Failed to clone repository: " ++ env.cloneStderr), [Event.clone])
  else if !env.fetchBranchOk then
    (mkFail ("Failed to fetch target branch \x27" ++ cfg.targetBranch ++ "\x27: "
        ++ env.fetchBranchStderr),
      [Event.clone, Event.fetchBranch])
  else if !env.checkoutOk then
    (mkFail ("Failed to checkout target branch: " ++ env.checkoutStderr),
      [Event.clone, Event.fetchBranch, Event.checkout])
  else
    match fetchCommitsLoop env.fetchCommitOk env.fetchCommitStderr cfg.commits with
    | .err m evs =>
      (mkFail m, [Event.clone, Event.fetchBranch, Event.checkout] ++ evs)
    | .ok evs =>
      match processCommits cfg.intent env.step 0 cfg.commits with
      | .err m evs2 =>
        (mkFail m, [Event.clone, Event.fetchBranch, Event.checkout] ++ evs ++ evs2)
      | .ok evs2 r fs =>
        if !env.pushOk then
          (mkFail ("Failed to push branch: " ++ env.pushStderr),
            [Event.clone, Event.fetchBranch, Event.checkout] ++ evs ++ evs2 ++
              [Event.renameBranch (backportBranch cfg),
               Event.deleteRemote (backportBranch cfg),
               Event.push (backportBranch cfg)])
        else
          ({ success := true, branch := some (backportBranch cfg), error := none
             conflictFiles := if fs.isEmpty then none else some fs
             resolvedConflicts := if r = 0 then none else some r },
            [Event.clone, Event.fetchBranch, Event.checkout] ++ evs ++ evs2 ++
              [Event.renameBranch (backportBranch cfg),
               Event.deleteRemote (backportBranch cfg),
               Event.push (backportBranch cfg)])

/-- `executeBackport` from `src/lib/sandbox.ts`.  If sandbox creation
throws, the catch returns the failure with no sandbox to stop; otherwise
the `finally` block stops the sandbox on every path, swallowing any
`stop()` error, so `Event.stop` closes every trace. -/
def executeBackport (cfg : BackportConfig) (env : SandboxEnv) :
    BackportExecutionResult × List Event :=
  if !env.createOk then (mkFail env.createErrMsg, [])
  else
    ((sandboxPhase cfg env).1,
      Event.created :: ((sandboxPhase cfg env).2 ++ [Event.stop]))

/-! ## Trace projections -/

/-- The commit-level skeleton of a trace: cherry-pick attempts, completed
(or skipped) commits, and pushes; everything else is dropped. -/
inductive KeyEv where
  | pick (sha : String)
  | done (sha : String)
  | pushed (branch : String)
deriving Repr, DecidableEq

/-- Projection of a single event onto the commit-level skeleton. -/
def keyProj : Event → Option KeyEv
  | .cherryPick s => some (.pick s)
  | .commitCreated s _ => some (.done s)
  | .alreadyApplied s => some (.done s)
  | .push b => some (.pushed b)
  | _ => none

/-- Commit-level skeleton of a trace. -/
def kProj (evs : List Event) : List KeyEv :=
  evs.filterMap keyProj

/-! ## Remote branch-state model for the push tail

Modelled from the spec: the remote side of `git push origin --delete b`
and `git push origin b` is git itself, outside this repository.  The
state is whether the remote branch `b` (left over from a prior failed
attempt, hence with divergent history) exists; delete removes it
(succeeding only when it existed), and a plain push succeeds only when no
such branch exists, creating it. -/

/-- `git push origin --delete b`: new remote state and exit status. -/
def remoteDelete (branchExists : Bool) : Bool × Bool :=
  (false, branchExists)

/-- `git push origin b` against a possibly stale same-named branch:
fails when one exists, creates it otherwise. -/
def remotePush (branchExists : Bool) : Bool × Bool :=
  if branchExists then (branchExists, false) else (true, true)

/-- The push tail of `executeBackport` as it acts on the remote: delete
the stale branch, ignore the delete's exit status, then push; returns the
push's exit status. -/
def deleteThenPush (branchExists : Bool) : Bool :=
  (remotePush (remoteDelete branchExists).1).2

/-! ## Workflow (src/workflows/backport.ts, `backportPullRequest`) -/

/-- One predicted conflict of the `BackportAnalysisSchema`. -/
structure PotentialConflict where
  file : String
  reason : String
  severity : String
deriving Repr, DecidableEq

/-- The `BackportAnalysis` oracle output (feasibility), from the zod
schema in `src/lib/ai.ts`.  The float confidence is embedded as ℚ. -/
structure BackportAnalysis where
  canBackport : Bool
  confidence : ℚ
  potentialConflicts : List PotentialConflict
  recommendations : List String
  manualStepsRequired : List String
  estimatedEffort : String

/-- The `BackportResult` of `src/workflows/backport.ts`. -/
structure BackportResult where
  success : Bool
  resultPR : Option Nat
  error : Option String
deriving Repr, DecidableEq

/-- Observable outcome of one workflow run: the returned result, the
final job status written by `updateJob`, and whether the execute step
(`performBackport`, hence `executeBackport`) was invoked. -/
structure WorkflowOutcome where
  result : BackportResult
  jobStatus : JobStatus
  executorInvoked : Bool
deriving Repr, DecidableEq

/-- Environment of one `backportPullRequest` run: whether the steps
before the gate (acknowledge, fetch PR details, validate target branch,
analyze) complete, the message of the exception when they do not, the
feasibility analysis the oracle returns, and the result `executeBackport`
would produce if invoked.  The post-success steps (PR creation, comments)
are taken to succeed; they are irrelevant to the gate. -/
structure WorkflowEnv where
  earlyOk : Bool
  earlyErr : String
  backportAnalysis : BackportAnalysis
  execResult : BackportExecutionResult
  resultPR : Nat

/-- The gating error text built at the gate of `backportPullRequest`:
the potential conflicts as `- file: reason` lines, then the
recommendations. -/
def gateError (a : BackportAnalysis) : String :=
  let reasons := String.intercalate "\n"
    (a.potentialConflicts.map (fun c => "- " ++ c.file ++ ": " ++ c.reason))
  "AI analysis indicates this backport may not be feasible:\n" ++ reasons
    ++ "\n\nRecommendations:\n" ++ String.intercalate "\n" a.recommendations

/-- `backportPullRequest` from `src/workflows/backport.ts`: an exception
before the gate is caught at the top level and marks the job failed; the
gate refuses when `!canBackport && confidence > 0.8`, marking the job
failed with the gate error and never invoking the executor; otherwise the
execute step runs and its result decides the final status. -/
def backportPullRequest (env : WorkflowEnv) : WorkflowOutcome :=
  if !env.earlyOk then
    { result := { success := false, resultPR := none, error := some env.earlyErr }
      jobStatus := .failed
      executorInvoked := false }
  else if !env.backportAnalysis.canBackport
      && decide (env.backportAnalysis.confidence > mkRat 8 10) then
    { result := { success := false, resultPR := none
                  error := some (gateError env.backportAnalysis) }
      jobStatus := .failed
      executorInvoked := false }
  else if env.execResult.success then
    { result := { success := true, resultPR := some env.resultPR, error := none }
      jobStatus := .completed
      executorInvoked := true }
  else
    { result := { success := false, resultPR := none, error := env.execResult.error }
      jobStatus := .failed
      executorInvoked := true }

/-! ## Webhook handler (`handleIssueComment`) -/

/-- The permission allow-list of `handleIssueComment`. -/
def allowedPermissions : List String := ["admin", "write", "maintain"]

/-- Environment of one `handleIssueComment` run: the shape checks on the
payload, the parsed backport command, whether the
`getCollaboratorPermissionLevel` call succeeds, and the permission level
it reports when it does (when the call throws, the handler logs and
continues).  Falsy required fields are embedded as `none`. -/
structure CommentEnv where
  isPRComment : Bool
  command : Option String
  installationId : Option Nat
  repository : Option String
  prNumber : Option Nat
  commentId : Option Nat
  requestedBy : String
  permCheckOk : Bool
  permission : String
  startOk : Bool

/-- Observable outcome of one `handleIssueComment` run. -/
structure CommentOutcome where
  workflowStarted : Bool
  denialCommentPosted : Bool
  jobCreated : Bool
  response : String
deriving Repr, DecidableEq

/-- `handleIssueComment` from the webhook route: drop non-PR comments and
comments without a backport command, reject payloads missing required
fields, then check the requester's permission — when the check succeeds
and the level is not allow-listed, post a denial comment and stop; when
the check itself throws, continue anyway; finally create the job and
start the workflow. -/
def handleIssueComment (env : CommentEnv) : CommentOutcome :=
  if !env.isPRComment then
    { workflowStarted := false, denialCommentPosted := false
      jobCreated := false, response := "Not a PR comment" }
  else
    match env.command with
    | none =>
      { workflowStarted := false, denialCommentPosted := false
        jobCreated := false, response := "No backport command found" }
    | some _ =>
      if env.installationId.isNone || env.repository.isNone
          || env.prNumber.isNone || env.commentId.isNone then
        { workflowStarted := false, denialCommentPosted := false
          jobCreated := false, response := "Missing required fields" }
      else if env.permCheckOk && !(allowedPermissions.contains env.permission) then
        { workflowStarted := false, denialCommentPosted := true
          jobCreated := false, response := "Permission denied" }
      else
        { workflowStarted := true, denialCommentPosted := false
          jobCreated := true
          response := if env.startOk then "Backport workflow started"
            else "Failed to start workflow" }

/-! ## Store lemmas -/

theorem storeGet_storeSet_same (s : JobStore) (k : String) (v : BackportJob) :
    storeGet (storeSet s k v) k = some v := by
  induction s with
  | nil => simp [storeSet, storeGet]
  | cons kv rest ih =>
    obtain ⟨k', v'⟩ := kv
    by_cases h : k' = k
    · simp [storeSet, storeGet, h]
    · simp [storeSet, storeGet, h, ih]

theorem storeGet_storeSet_ne (s : JobStore) (k other : String) (v : BackportJob)
    (h : other ≠ k) : storeGet (storeSet s k v) other = storeGet s other := by
  induction s with
  | nil =>
    simp [storeSet, storeGet, show ¬k = other from fun hh => h hh.symm]
  | cons kv rest ih =>
    obtain ⟨k', v'⟩ := kv
    by_cases hk : k' = k
    · subst hk
      simp [storeSet, storeGet, show ¬k' = other from fun hh => h hh.symm]
    · simp [storeSet, storeGet, hk, ih]

/-! ## Claim theorems: job store -/

/-- Example job, store and update for the job-store claims. -/
def jobDone : BackportJob :=
  { id := "j1", repository := "o/r", installationId := 1, sourcePR := 2
    targetBranch := "v1", status := .completed, createdAt := 0, updatedAt := 1
    requestedBy := "alice", commentId := 3, resultPR := some 9, error := none
    logs := ["[t0] created"] }

def jobOther : BackportJob :=
  { id := "j2", repository := "o/r", installationId := 1, sourcePR := 4
    targetBranch := "v2", status := .pending, createdAt := 0, updatedAt := 0
    requestedBy := "bob", commentId := 5, resultPR := none, error := none
    logs := [] }

def storeTwo : JobStore := [("j1", jobDone), ("j2", jobOther)]

def updToPending : JobUpdates :=
  { status := some .pending, resultPR := none, error := none }

/-- C5 counterexample: `updateJob` happily moves a job whose status is the
terminal `completed` back to the non-terminal `pending` — the store
enforces no monotonicity. -/
theorem updateJob_resurrects_terminal_counterexample :
    jobDone.status.isTerminal = true ∧
    JobStatus.pending.isTerminal = false ∧
    ((updateJob storeTwo "j1" updToPending 5).1.map (fun j => j.status))
      = some JobStatus.pending := by
  decide

/-- C5 (amended): `updateJob` merges the requested fields unconditionally:
whenever the update carries a status, the stored job's status becomes
exactly that status — even a non-terminal one on a terminal job.  The
pending → in_progress → terminal monotonicity is a discipline of the
callers, not an invariant the store enforces. -/
theorem updateJob_applies_status_unconditionally (store : JobStore) (id : String)
    (u : JobUpdates) (j : BackportJob) (now : Nat) (s : JobStatus)
    (hget : storeGet store id = some j) (hs : u.status = some s) :
    (updateJob store id u now).1 = some (mergeJob j u now) ∧
    (mergeJob j u now).status = s ∧
    storeGet (updateJob store id u now).2 id = some (mergeJob j u now) := by
  refine ⟨?_, ?_, ?_⟩
  · unfold updateJob
    rw [hget]
  · simp [mergeJob, hs]
  · unfold updateJob
    rw [hget]
    exact storeGet_storeSet_same store id _

/-- C5 amended-claim witness at a concrete terminal job. -/
theorem updateJob_applies_status_unconditionally_witness :
    (updateJob storeTwo "j1" updToPending 5).1
      = some (mergeJob jobDone updToPending 5) ∧
    (mergeJob jobDone updToPending 5).status = JobStatus.pending ∧
    storeGet (updateJob storeTwo "j1" updToPending 5).2 "j1"
      = some (mergeJob jobDone updToPending 5) :=
  updateJob_applies_status_unconditionally storeTwo "j1" updToPending jobDone 5
    JobStatus.pending (by decide) rfl

/-- C9: `addJobLog` on an unknown id returns the store unchanged (so every
existing job's log is untouched, and being a total function it cannot
throw); on a known id it appends exactly one entry, the message prefixed
with the bracketed timestamp, leaving all prior entries and all other
jobs as they were. -/
theorem addJobLog_noop_or_append (store : JobStore) (id now : String)
    (nowT : Nat) (message : String) :
    (storeGet store id = none → addJobLog store id now nowT message = store) ∧
    (∀ j, storeGet store id = some j →
      storeGet (addJobLog store id now nowT message) id =
        some { j with logs := j.logs ++ ["[" ++ now ++ "] " ++ message]
                      updatedAt := nowT } ∧
      ∀ other, other ≠ id →
        storeGet (addJobLog store id now nowT message) other = storeGet store other) := by
  constructor
  · intro hnone
    unfold addJobLog
    rw [hnone]
  · intro j hsome
    unfold addJobLog
    rw [hsome]
    exact ⟨storeGet_storeSet_same store id _,
      fun other hne => storeGet_storeSet_ne store id other _ hne⟩

/-- C9 witness: unknown id is a no-op on a concrete two-job store, and a
known id appends exactly the bracketed entry. -/
theorem addJobLog_noop_or_append_witness :
    addJobLog storeTwo "nope" "t1" 7 "hello" = storeTwo ∧
    storeGet (addJobLog storeTwo "j1" "t1" 7 "hello") "j1" =
      some { jobDone with logs := jobDone.logs ++ ["[t1] hello"], updatedAt := 7 } ∧
    storeGet (addJobLog storeTwo "j1" "t1" 7 "hello") "j2" = storeGet storeTwo "j2" := by
  refine ⟨(addJobLog_noop_or_append storeTwo "nope" "t1" 7 "hello").1 (by decide),
    ((addJobLog_noop_or_append storeTwo "j1" "t1" 7 "hello").2 jobDone (by decide)).1,
    ((addJobLog_noop_or_append storeTwo "j1" "t1" 7 "hello").2 jobDone (by decide)).2
      "j2" (by decide)⟩

/-! ## Claim theorems: workflow gate -/

/-- C1: when the feasibility oracle answers `canBackport = false` with
confidence above 0.8, `backportPullRequest` returns `success = false`,
marks the job failed and never invokes `executeBackport`; in every other
combination of `canBackport` and confidence (provided the steps before
the gate completed), the workflow proceeds to the execution step. -/
theorem gate_blocks_executor (env : WorkflowEnv) :
    ((env.backportAnalysis.canBackport = false ∧
        mkRat 8 10 < env.backportAnalysis.confidence) →
      (backportPullRequest env).executorInvoked = false ∧
      (backportPullRequest env).result.success = false ∧
      (backportPullRequest env).jobStatus = JobStatus.failed) ∧
    (env.earlyOk = true →
      (env.backportAnalysis.canBackport = true ∨
        env.backportAnalysis.confidence ≤ mkRat 8 10) →
      (backportPullRequest env).executorInvoked = true) := by
  constructor
  · rintro ⟨hcb, hconf⟩
    unfold backportPullRequest
    by_cases he : env.earlyOk
    · simp only [he, hcb, Bool.not_true, Bool.false_eq_true, if_false,
        Bool.not_false, Bool.true_and, gt_iff_lt]
      rw [decide_eq_true hconf]
      simp
    · simp [he]
  · intro he hother
    unfold backportPullRequest
    have hgate : (!env.backportAnalysis.canBackport
        && decide (env.backportAnalysis.confidence > mkRat 8 10)) = false := by
      rcases hother with hcb | hconf
      · simp [hcb]
      · simp [decide_eq_false (not_lt.mpr hconf)]
    rw [he, hgate]
    by_cases hex : env.execResult.success <;> simp [hex]

/-- Analysis result that trips the gate. -/
def analysisGate : BackportAnalysis :=
  { canBackport := false, confidence := mkRat 9 10
    potentialConflicts := [{ file := "a.ts", reason := "rewritten", severity := "high" }]
    recommendations := ["do it by hand"], manualStepsRequired := []
    estimatedEffort := "difficult" }

/-- Analysis result that does not trip the gate (negative prediction but
low confidence). -/
def analysisWeakNo : BackportAnalysis :=
  { canBackport := false, confidence := mkRat 5 10
    potentialConflicts := [], recommendations := [], manualStepsRequired := []
    estimatedEffort := "moderate" }

def envGate : WorkflowEnv :=
  { earlyOk := true, earlyErr := "", backportAnalysis := analysisGate
    execResult := mkFail "unused", resultPR := 11 }

def envWeakNo : WorkflowEnv :=
  { earlyOk := true, earlyErr := "", backportAnalysis := analysisWeakNo
    execResult := mkFail "sandbox says no", resultPR := 11 }

/-- C1 witness: a high-confidence negative analysis blocks the executor
and fails the job, while a low-confidence negative analysis proceeds to
execution. -/
theorem gate_blocks_executor_witness :
    ((backportPullRequest envGate).executorInvoked = false ∧
      (backportPullRequest envGate).result.success = false ∧
      (backportPullRequest envGate).jobStatus = JobStatus.failed) ∧
    (backportPullRequest envWeakNo).executorInvoked = true :=
  ⟨(gate_blocks_executor envGate).1 ⟨rfl, by decide⟩,
    (gate_blocks_executor envWeakNo).2 rfl (Or.inr (by decide))⟩

/-! ## Claim theorems: conflict-resolution threshold -/

/-- C3: once `resolveConflictWithAI` reads a file that really carries
conflict markers and the oracle answers without throwing, the proposed
content is written and staged exactly when the oracle's confidence is at
least 0.7, and the boolean the function returns coincides with whether
the resolution was applied. -/
theorem resolveConflict_threshold (env : ResolutionEnv) (intent : String)
    (hread : env.readOk = true) (hmark : hasConflictMarkers env.content = true)
    (hthrow : env.oracleThrows = false) :
    ((resolveConflictWithAI env intent).applied = true ↔
      mkRat 7 10 ≤ env.confidence) ∧
    (resolveConflictWithAI env intent).resolved =
      (resolveConflictWithAI env intent).applied := by
  unfold resolveConflictWithAI
  rw [hread, hmark, hthrow]
  by_cases h : env.confidence < mkRat 7 10
  · simp only [if_pos h]
    exact ⟨by simp [not_le.mpr h], rfl⟩
  · simp only [if_neg h]
    exact ⟨by simp [not_lt.mp h], rfl⟩

/-- Conflicted file content with a single region, used in witnesses. -/
def oneRegionContent : String :=
  "top\n<<<<<<< HEAD\nours line\n=======\ntheirs line\n>>>>>>> pick\nbottom"

def envConf069 : ResolutionEnv :=
  { readOk := true, content := oneRegionContent, oracleThrows := false
    resolvedContent := "merged", explanation := "why", confidence := mkRat 69 100 }

def envConf070 : ResolutionEnv :=
  { readOk := true, content := oneRegionContent, oracleThrows := false
    resolvedContent := "merged", explanation := "why", confidence := mkRat 70 100 }

/-- C3 witness: confidence exactly 0.69 is rejected, exactly 0.70 is
accepted. -/
theorem resolveConflict_threshold_witness :
    (resolveConflictWithAI envConf069 "fix").applied = false ∧
    (resolveConflictWithAI envConf070 "fix").applied = true := by
  have h69 := (resolveConflict_threshold envConf069 "fix" rfl (by decide) rfl).1
  have h70 := (resolveConflict_threshold envConf070 "fix" rfl (by decide) rfl).1
  constructor
  · cases happ : (resolveConflictWithAI envConf069 "fix").applied
    · rfl
    · exact absurd (h69.mp happ) (by decide)
  · exact h70.mpr (by decide)

/-! ## Claim theorems: multi-region conflict parsing -/

/-- A file with two conflict regions: region 1 is `(a1, a2)`, region 2 is
`(b1, b2)`. -/
def twoRegionContent : String :=
  "head\n<<<<<<< HEAD\na1\n=======\na2\n>>>>>>> pick\nmid\n<<<<<<< HEAD\nb1\n=======\nb2\n>>>>>>> pick\ntail"

def envTwoRegions : ResolutionEnv :=
  { readOk := true, content := twoRegionContent, oracleThrows := false
    resolvedContent := "merged", explanation := "why", confidence := mkRat 9 10 }

/-- C6 counterexample: on a file with two conflict regions the oracle is
invoked with the `(ours, theirs)` pair of the second region only — the
first region's pair `("a1\n", "a2\n")` is not part of the invocation,
refuting the claim that the oracle receives the segment pairs of every
region. -/
theorem oracle_misses_first_region_counterexample :
    (resolveConflictWithAI envTwoRegions "fix").oracleCall =
      some { markedContent := twoRegionContent, theirs := "b2\n", ours := "b1\n"
             intent := "fix" } ∧
    ("b1\n" ≠ "a1\n" ∧ "b2\n" ≠ "a2\n") := by
  constructor
  · rfl
  · exact ⟨by decide, by decide⟩

/-- C6 (amended): the scan does visit every marker triad, but each
`<<<<<<<` line resets the accumulators, so `resolveConflictWithAI`
invokes the oracle exactly once per file, with the full marked content
and only the final scan state's `(ours, theirs)` pair — the pair of the
last conflict region, not of every region. -/
theorem resolveConflict_single_oracle_call (env : ResolutionEnv) (intent : String)
    (hread : env.readOk = true) (hmark : hasConflictMarkers env.content = true) :
    (resolveConflictWithAI env intent).oracleCall =
      some { markedContent := env.content
             theirs := (conflictSections env.content).2
             ours := (conflictSections env.content).1
             intent := intent } := by
  unfold resolveConflictWithAI
  rw [hread, hmark]
  by_cases h1 : env.oracleThrows
  · simp [h1]
  · by_cases h2 : env.confidence < mkRat 7 10 <;> simp [h1, h2]

/-- C6 amended-claim witness at the two-region file. -/
theorem resolveConflict_single_oracle_call_witness :
    (resolveConflictWithAI envTwoRegions "fix").oracleCall =
      some { markedContent := twoRegionContent
             theirs := (conflictSections twoRegionContent).2
             ours := (conflictSections twoRegionContent).1
             intent := "fix" } :=
  resolveConflict_single_oracle_call envTwoRegions "fix" rfl (by decide)

/-! ## Claim theorems: authorization gate -/

/-- A request whose permission check throws while the requester's actual
permission is only `read`. -/
def envPermCheckError : CommentEnv :=
  { isPRComment := true, command := some "release-1.0", installationId := some 1
    repository := some "o/r", prNumber := some 2, commentId := some 3
    requestedBy := "mallory", permCheckOk := false, permission := "read"
    startOk := true }

/-- C7 counterexample: when `getCollaboratorPermissionLevel` itself
throws, the handler logs and continues, so the workflow is started for a
requester whose permission (`read`) is not in the allow-list — refuting
the claim that the workflow starts only for allow-listed requesters. -/
theorem permission_gate_bypassed_counterexample :
    allowedPermissions.contains envPermCheckError.permission = false ∧
    (handleIssueComment envPermCheckError).workflowStarted = true ∧
    (handleIssueComment envPermCheckError).denialCommentPosted = false := by
  decide

/-- C7 (amended): provided the permission check succeeds, the workflow is
started exactly when the reported permission level is in
`allowedPermissions`, and a denial comment is posted otherwise; when the
permission check itself throws, the handler deliberately continues and
starts the workflow anyway. -/
theorem permission_gate_when_check_succeeds (env : CommentEnv)
    (hpr : env.isPRComment = true) (t : String) (hcmd : env.command = some t)
    (hi : env.installationId.isSome = true) (hr : env.repository.isSome = true)
    (hp : env.prNumber.isSome = true) (hc : env.commentId.isSome = true)
    (hchk : env.permCheckOk = true) :
    ((handleIssueComment env).workflowStarted = true ↔
      allowedPermissions.contains env.permission = true) ∧
    (allowedPermissions.contains env.permission = false →
      (handleIssueComment env).denialCommentPosted = true) := by
  unfold handleIssueComment
  rw [hpr, hcmd]
  simp only [Bool.not_true, Bool.false_eq_true, if_false,
    Option.isNone_iff_eq_none]
  have hi' : ¬env.installationId = none := by
    intro hh; rw [hh] at hi; exact absurd hi (by decide)
  have hr' : ¬env.repository = none := by
    intro hh; rw [hh] at hr; exact absurd hr (by decide)
  have hp' : ¬env.prNumber = none := by
    intro hh; rw [hh] at hp; exact absurd hp (by decide)
  have hc' : ¬env.commentId = none := by
    intro hh; rw [hh] at hc; exact absurd hc (by decide)
  cases hperm : allowedPermissions.contains env.permission <;>
    simp [hi', hr', hp', hc', hchk, hperm]

def envPermWrite : CommentEnv :=
  { envPermCheckError with requestedBy := "carol", permCheckOk := true
                           permission := "write" }

def envPermRead : CommentEnv :=
  { envPermCheckError with permCheckOk := true }

/-- C7 amended-claim witness: with a successful check, `write` starts the
workflow and `read` is denied with a comment. -/
theorem permission_gate_when_check_succeeds_witness :
    (handleIssueComment envPermWrite).workflowStarted = true ∧
    (handleIssueComment envPermRead).workflowStarted = false ∧
    (handleIssueComment envPermRead).denialCommentPosted = true := by
  have hw := permission_gate_when_check_succeeds envPermWrite rfl "release-1.0"
    rfl rfl rfl rfl rfl rfl
  have hrd := permission_gate_when_check_succeeds envPermRead rfl "release-1.0"
    rfl rfl rfl rfl rfl rfl
  refine ⟨hw.1.mpr (by decide), ?_, hrd.2 (by decide)⟩
  cases hs : (handleIssueComment envPermRead).workflowStarted
  · rfl
  · exact absurd (hrd.1.mp hs) (by decide)

/-! ## Trace lemmas for the executor -/

/-- Events of a `FilesResult`, whichever way it went. -/
def FilesResult.events : FilesResult → List Event
  | .ok evs _ => evs
  | .err _ evs => evs

/-- Events of a `FetchResult`, whichever way it went. -/
def FetchResult.events : FetchResult → List Event
  | .ok evs => evs
  | .err _ evs => evs

/-- The commit-level skeleton a fully processed commit list leaves:
a pick followed by a done, per commit, in order. -/
def pickDoneSeq : List Commit → List KeyEv
  | [] => []
  | c :: rest => KeyEv.pick c.sha :: KeyEv.done c.sha :: pickDoneSeq rest

theorem kProj_append (a b : List Event) : kProj (a ++ b) = kProj a ++ kProj b := by
  simp [kProj]

theorem kProj_cons_cherryPick (s : String) (evs : List Event) :
    kProj (Event.cherryPick s :: evs) = KeyEv.pick s :: kProj evs := by
  simp [kProj, keyProj]

theorem processFiles_events_kProj (intent : String) (fenv : String → ResolutionEnv)
    (fs : List String) : kProj (processFiles intent fenv fs).events = [] := by
  induction fs with
  | nil => rfl
  | cons f rest ih =>
    unfold processFiles
    by_cases h : (resolveConflictWithAI (fenv f) intent).resolved
    · simp only [if_pos h]
      cases hr : processFiles intent fenv rest with
      | ok evs n =>
        rw [hr] at ih
        simpa [FilesResult.events, kProj, keyProj] using ih
      | err g evs =>
        rw [hr] at ih
        simpa [FilesResult.events, kProj, keyProj] using ih
    · simp only [if_neg h]
      rfl

theorem processFiles_err_mem (intent : String) (fenv : String → ResolutionEnv)
    (fs : List String) (f : String) (evs : List Event)
    (h : processFiles intent fenv fs = .err f evs) :
    f ∈ fs ∧ Event.abortCherryPick ∈ evs := by
  induction fs generalizing evs with
  | nil => exact absurd h (by simp [processFiles])
  | cons g rest ih =>
    unfold processFiles at h
    by_cases hres : (resolveConflictWithAI (fenv g) intent).resolved
    · rw [if_pos hres] at h
      cases hr : processFiles intent fenv rest with
      | ok evs' n => rw [hr] at h; exact absurd h (by simp)
      | err f' evs' =>
        rw [hr] at h
        cases h
        obtain ⟨hmem, habort⟩ := ih evs' hr
        exact ⟨List.mem_cons_of_mem _ hmem, List.mem_cons_of_mem _ habort⟩
    · rw [if_neg hres] at h
      cases h
      exact ⟨List.mem_cons_self _ _, by simp⟩

theorem commitPhase_ok_kProj (st : CommitStep) (c : Commit) (evs0 : List Event)
    (r0 : Nat) (fs0 : List String) (evs : List Event) (r : Nat) (fs : List String)
    (h : commitPhase st c evs0 r0 fs0 = .ok evs r fs) :
    kProj evs = kProj evs0 ++ [KeyEv.done c.sha] := by
  unfold commitPhase at h
  by_cases h1 : st.commitOk
  · rw [if_pos h1] at h
    cases h
    simp [kProj, keyProj]
  · rw [if_neg h1] at h
    by_cases h2 : st.postStatusClean
    · rw [if_pos h2] at h
      cases h
      simp [kProj, keyProj]
    · rw [if_neg h2] at h
      exact absurd h (by simp)

theorem commitPhase_err_events (st : CommitStep) (c : Commit) (evs0 : List Event)
    (r0 : Nat) (fs0 : List String) (m : String) (evs : List Event)
    (h : commitPhase st c evs0 r0 fs0 = .err m evs) : evs = evs0 := by
  unfold commitPhase at h
  by_cases h1 : st.commitOk
  · rw [if_pos h1] at h; exact absurd h (by simp)
  · rw [if_neg h1] at h
    by_cases h2 : st.postStatusClean
    · rw [if_pos h2] at h; exact absurd h (by simp)
    · rw [if_neg h2] at h; cases h; rfl

theorem processCommit_ok_kProj (intent : String) (st : CommitStep) (c : Commit)
    (evs : List Event) (r : Nat) (fs : List String)
    (h : processCommit intent st c = .ok evs r fs) :
    kProj evs = [KeyEv.pick c.sha, KeyEv.done c.sha] := by
  unfold processCommit at h
  by_cases h1 : st.cherryPickOk
  · rw [if_pos h1] at h
    have := commitPhase_ok_kProj st c _ 0 [] evs r fs h
    simpa [kProj, keyProj] using this
  · rw [if_neg h1] at h
    by_cases h2 : st.conflictFiles.isEmpty
    · rw [if_pos h2] at h; exact absurd h (by simp)
    · rw [if_neg h2] at h
      cases hf : processFiles intent st.fileEnv st.conflictFiles with
      | err f evsf => rw [hf] at h; exact absurd h (by simp)
      | ok evsf n =>
        rw [hf] at h
        have := commitPhase_ok_kProj st c _ n st.conflictFiles evs r fs h
        have hfp := processFiles_events_kProj intent st.fileEnv st.conflictFiles
        rw [hf] at hfp
        simp only [FilesResult.events] at hfp
        rw [this, kProj_cons_cherryPick, hfp]
        rfl

theorem processCommit_err_kProj (intent : String) (st : CommitStep) (c : Commit)
    (m : String) (evs : List Event)
    (h : processCommit intent st c = .err m evs) :
    kProj evs = [KeyEv.pick c.sha] := by
  unfold processCommit at h
  by_cases h1 : st.cherryPickOk
  · rw [if_pos h1] at h
    have := commitPhase_err_events st c _ 0 [] m evs h
    subst this
    simp [kProj, keyProj]
  · rw [if_neg h1] at h
    by_cases h2 : st.conflictFiles.isEmpty
    · rw [if_pos h2] at h
      cases h
      simp [kProj, keyProj]
    · rw [if_neg h2] at h
      cases hf : processFiles intent st.fileEnv st.conflictFiles with
      | err f evsf =>
        rw [hf] at h
        cases h
        have hfp := processFiles_events_kProj intent st.fileEnv st.conflictFiles
        rw [hf] at hfp
        simp only [FilesResult.events] at hfp
        rw [kProj_cons_cherryPick, hfp]
      | ok evsf n =>
        rw [hf] at h
        have := commitPhase_err_events st c _ n st.conflictFiles m evs h
        subst this
        have hfp := processFiles_events_kProj intent st.fileEnv st.conflictFiles
        rw [hf] at hfp
        simp only [FilesResult.events] at hfp
        rw [kProj_cons_cherryPick, hfp]

theorem processCommits_ok_kProj (intent : String) (step : Nat → CommitStep)
    (cs : List Commit) : ∀ (i : Nat) (evs : List Event) (r : Nat) (fs : List String),
    processCommits intent step i cs = .ok evs r fs → kProj evs = pickDoneSeq cs := by
  induction cs with
  | nil =>
    intro i evs r fs h
    unfold processCommits at h
    cases h
    rfl
  | cons c rest ih =>
    intro i evs r fs h
    unfold processCommits at h
    cases h1 : processCommit intent (step i) c with
    | err m evs1 => rw [h1] at h; exact absurd h (by simp)
    | ok evs1 r1 fs1 =>
      rw [h1] at h
      cases h2 : processCommits intent step (i + 1) rest with
      | err m evs2 => rw [h2] at h; exact absurd h (by simp)
      | ok evs2 r2 fs2 =>
        rw [h2] at h
        cases h
        rw [kProj_append, processCommit_ok_kProj intent (step i) c evs1 r1 fs1 h1,
          ih (i + 1) evs2 r2 fs2 h2]
        rfl

theorem processCommits_append_err (intent : String) (step : Nat → CommitStep)
    (pre : List Commit) : ∀ (i : Nat) (evs0 : List Event) (r0 : Nat)
    (fs0 : List String) (c : Commit) (post : List Commit) (m : String)
    (evsc : List Event),
    processCommits intent step i pre = .ok evs0 r0 fs0 →
    processCommit intent (step (i + pre.length)) c = .err m evsc →
    processCommits intent step i (pre ++ c :: post) = .err m (evs0 ++ evsc) := by
  induction pre with
  | nil =>
    intro i evs0 r0 fs0 c post m evsc hpre hc
    unfold processCommits at hpre
    cases hpre
    simp only [List.length_nil, Nat.add_zero] at hc
    simp only [List.nil_append]
    unfold processCommits
    rw [hc]
  | cons p pre' ih =>
    intro i evs0 r0 fs0 c post m evsc hpre hc
    unfold processCommits at hpre
    cases h1 : processCommit intent (step i) p with
    | err m1 evs1 => rw [h1] at hpre; exact absurd hpre (by simp)
    | ok evs1 r1 fs1 =>
      rw [h1] at hpre
      cases h2 : processCommits intent step (i + 1) pre' with
      | err m2 evs2 => rw [h2] at hpre; exact absurd hpre (by simp)
      | ok evs2 r2 fs2 =>
        rw [h2] at hpre
        cases hpre
        have hc' : processCommit intent (step ((i + 1) + pre'.length)) c = .err m evsc := by
          have : (i + 1) + pre'.length = i + (p :: pre').length := by
            simp [List.length_cons]
            omega
          rw [this]
          exact hc
        have hrec := ih (i + 1) evs2 r2 fs2 c post m evsc h2 hc'
        show processCommits intent step i (p :: (pre' ++ c :: post)) = _
        unfold processCommits
        rw [h1, hrec, List.append_assoc]

theorem fetchCommitsLoop_events_kProj (fOk : String → Bool) (fErr : String → String)
    (cs : List Commit) : kProj (fetchCommitsLoop fOk fErr cs).events = [] := by
  induction cs with
  | nil => rfl
  | cons c rest ih =>
    unfold fetchCommitsLoop
    by_cases h : fOk c.sha
    · simp only [if_pos h]
      cases hr : fetchCommitsLoop fOk fErr rest with
      | ok evs =>
        rw [hr] at ih
        simpa [FetchResult.events, kProj, keyProj] using ih
      | err m evs =>
        rw [hr] at ih
        simpa [FetchResult.events, kProj, keyProj] using ih
    · simp only [if_neg h]
      rfl

/-- Shape of a successful `sandboxPhase` run: all git phases succeeded,
the cherry-pick loop returned cleanly, and the trace is the three setup
events, the per-commit fetches, the loop's events, and the
rename/delete/push tail. -/
theorem sandboxPhase_success (cfg : BackportConfig) (env : SandboxEnv)
    (r : BackportExecutionResult) (evs : List Event)
    (h : sandboxPhase cfg env = (r, evs)) (hs : r.success = true) :
    ∃ fevs evs2 n fs,
      fetchCommitsLoop env.fetchCommitOk env.fetchCommitStderr cfg.commits
        = .ok fevs ∧
      processCommits cfg.intent env.step 0 cfg.commits = .ok evs2 n fs ∧
      env.pushOk = true ∧
      r = { success := true, branch := some (backportBranch cfg), error := none
            conflictFiles := if fs.isEmpty then none else some fs
            resolvedConflicts := if n = 0 then none else some n } ∧
      evs = [Event.clone, Event.fetchBranch, Event.checkout] ++ fevs ++ evs2 ++
        [Event.renameBranch (backportBranch cfg),
         Event.deleteRemote (backportBranch cfg),
         Event.push (backportBranch cfg)] := by
  unfold sandboxPhase at h
  split at h
  · cases h; simp [mkFail] at hs
  · split at h
    · cases h; simp [mkFail] at hs
    · split at h
      · cases h; simp [mkFail] at hs
      · split at h
        · cases h; simp [mkFail] at hs
        · rename_i fevs hfetch
          split at h
          · cases h; simp [mkFail] at hs
          · rename_i evs2 n fs hproc
            split at h
            · cases h; simp [mkFail] at hs
            · rename_i hpush
              cases h
              exact ⟨fevs, evs2, n, fs, hfetch, hproc,
                by revert hpush; cases env.pushOk <;> simp, rfl, rfl⟩

theorem kProj_cons_none (e : Event) (evs : List Event) (he : keyProj e = none) :
    kProj (e :: evs) = kProj evs := by
  simp [kProj, he]

/-! ## Claim theorems: commit ordering -/

/-- C4: on every successful run the commit-level skeleton of the trace is
exactly one cherry-pick immediately followed by one commit-or-skip per
input commit, in the input list's order, followed by the single push —
so commit `i+1` is attempted only after commit `i` is committed or
detected as already applied, and reordering the input list reorders the
resulting commits identically (this theorem holds for every commit list,
in particular for any permutation of another). -/
theorem executeBackport_preserves_order (cfg : BackportConfig) (env : SandboxEnv)
    (res : BackportExecutionResult) (trace : List Event)
    (h : executeBackport cfg env = (res, trace)) (hs : res.success = true) :
    kProj trace = pickDoneSeq cfg.commits ++ [KeyEv.pushed (backportBranch cfg)] := by
  unfold executeBackport at h
  split at h
  · cases h; simp [mkFail] at hs
  · cases h
    obtain ⟨fevs, evs2, n, fs, hfetch, hproc, _, _, hevs⟩ :=
      sandboxPhase_success cfg env (sandboxPhase cfg env).1 (sandboxPhase cfg env).2
        rfl hs
    have hf : kProj fevs = [] := by
      have hk := fetchCommitsLoop_events_kProj env.fetchCommitOk
        env.fetchCommitStderr cfg.commits
      rw [hfetch] at hk
      simpa [FetchResult.events] using hk
    have hp : kProj evs2 = pickDoneSeq cfg.commits :=
      processCommits_ok_kProj cfg.intent env.step cfg.commits 0 evs2 n fs hproc
    rw [hevs, kProj_cons_none Event.created _ rfl, kProj_append, kProj_append,
      kProj_append, kProj_append, hf, hp]
    simp [kProj, keyProj]

/-- A resolution environment that is never consulted (clean picks). -/
def resEnvUnused : ResolutionEnv :=
  { readOk := false, content := "", oracleThrows := false
    resolvedContent := "", explanation := "", confidence := 0 }

/-- A commit iteration whose cherry-pick and commit both succeed. -/
def stepClean : CommitStep :=
  { cherryPickOk := true, cherryPickStderr := "", conflictFiles := []
    fileEnv := fun _ => resEnvUnused, commitOk := true, commitStderr := ""
    postStatusClean := false }

def cfgTwo : BackportConfig :=
  { repository := "o/r", targetBranch := "v1"
    commits := [{ sha := "aaa1111", message := "first" },
                { sha := "bbb2222", message := "second" }]
    prNumber := 7, intent := "fix bug" }

/-- Environment in which every git operation succeeds. -/
def envAllOk : SandboxEnv :=
  { createOk := true, createErrMsg := "", cloneOk := true, cloneStderr := ""
    fetchBranchOk := true, fetchBranchStderr := "", checkoutOk := true
    checkoutStderr := "", fetchCommitOk := fun _ => true
    fetchCommitStderr := fun _ => "", step := fun _ => stepClean
    deleteRemoteOk := false, pushOk := true, pushStderr := "", stopFails := false }

/-- C4 witness: on a concrete clean two-commit run the skeleton is pick,
done, pick, done (input order), then the push. -/
theorem executeBackport_preserves_order_witness :
    kProj (executeBackport cfgTwo envAllOk).2 =
      pickDoneSeq cfgTwo.commits ++ [KeyEv.pushed (backportBranch cfgTwo)] ∧
    pickDoneSeq cfgTwo.commits ++ [KeyEv.pushed (backportBranch cfgTwo)] =
      [KeyEv.pick "aaa1111", KeyEv.done "aaa1111", KeyEv.pick "bbb2222",
       KeyEv.done "bbb2222", KeyEv.pushed "backport-pr-7-to-v1"] := by
  constructor
  · exact executeBackport_preserves_order cfgTwo envAllOk
      (executeBackport cfgTwo envAllOk).1 (executeBackport cfgTwo envAllOk).2
      rfl (by decide)
  · decide

/-! ## Claim theorems: unresolved conflict aborts the attempt -/

/-- C2: if, while processing the commit after `pre`, the per-file
resolution loop fails on some file `f` (low confidence or a resolution
error), then `executeBackport` returns `success = false` with an error
naming `f`; the trace shows the cherry-pick was aborted, and its
commit-level skeleton is exactly the pick/done pairs of the commits
before the failing one followed by the lone failed pick — so no commit
is created for that attempt, no later commit is processed, and the
branch is never pushed. -/
theorem executeBackport_unresolved_conflict_aborts (cfg : BackportConfig)
    (env : SandboxEnv) (pre : List Commit) (c : Commit) (post : List Commit)
    {evs0 : List Event} {r0 : Nat} {fs0 : List String} {fevs : List Event}
    {f : String} {evsf : List Event}
    (hcommits : cfg.commits = pre ++ c :: post)
    (hcreate : env.createOk = true) (hclone : env.cloneOk = true)
    (hfb : env.fetchBranchOk = true) (hco : env.checkoutOk = true)
    (hfetch : fetchCommitsLoop env.fetchCommitOk env.fetchCommitStderr cfg.commits
      = .ok fevs)
    (hpre : processCommits cfg.intent env.step 0 pre = .ok evs0 r0 fs0)
    (hcp : (env.step pre.length).cherryPickOk = false)
    (hfiles : processFiles cfg.intent (env.step pre.length).fileEnv
        (env.step pre.length).conflictFiles = .err f evsf) :
    (executeBackport cfg env).1.success = false ∧
    (executeBackport cfg env).1.error =
      some ("Could not resolve merge conflict in " ++ f
        ++ ". Manual intervention required.") ∧
    f ∈ (env.step pre.length).conflictFiles ∧
    Event.abortCherryPick ∈ (executeBackport cfg env).2 ∧
    kProj (executeBackport cfg env).2 = pickDoneSeq pre ++ [KeyEv.pick c.sha] := by
  obtain ⟨hmem, habort⟩ := processFiles_err_mem cfg.intent
    (env.step pre.length).fileEnv (env.step pre.length).conflictFiles f evsf hfiles
  have hnil : (env.step pre.length).conflictFiles ≠ [] := List.ne_nil_of_mem hmem
  have hpc : processCommit cfg.intent (env.step pre.length) c =
      .err ("Could not resolve merge conflict in " ++ f
        ++ ". Manual intervention required.")
        (Event.cherryPick c.sha :: evsf) := by
    unfold processCommit
    rw [if_neg (by rw [hcp]; decide)]
    rw [if_neg (by simp [List.isEmpty_iff, hnil])]
    rw [hfiles]
  have hpc' : processCommit cfg.intent (env.step (0 + pre.length)) c =
      .err ("Could not resolve merge conflict in " ++ f
        ++ ". Manual intervention required.")
        (Event.cherryPick c.sha :: evsf) := by
    rw [Nat.zero_add]; exact hpc
  have hfull := processCommits_append_err cfg.intent env.step pre 0 evs0 r0 fs0
    c post _ _ hpre hpc'
  rw [← hcommits] at hfull
  have hsp : sandboxPhase cfg env =
      (mkFail ("Could not resolve merge conflict in " ++ f
        ++ ". Manual intervention required."),
        [Event.clone, Event.fetchBranch, Event.checkout] ++ fevs ++
          (evs0 ++ (Event.cherryPick c.sha :: evsf))) := by
    unfold sandboxPhase
    rw [hclone, hfb, hco]
    simp only [Bool.not_true, Bool.false_eq_true, if_false]
    rw [hfetch, hfull]
  have hex : executeBackport cfg env =
      (mkFail ("Could not resolve merge conflict in " ++ f
        ++ ". Manual intervention required."),
        Event.created ::
          (([Event.clone, Event.fetchBranch, Event.checkout] ++ fevs ++
            (evs0 ++ (Event.cherryPick c.sha :: evsf))) ++ [Event.stop])) := by
    unfold executeBackport
    rw [hcreate]
    simp only [Bool.not_true, Bool.false_eq_true, if_false]
    rw [hsp]
  have hkf : kProj evsf = [] := by
    have hk := processFiles_events_kProj cfg.intent (env.step pre.length).fileEnv
      (env.step pre.length).conflictFiles
    rw [hfiles] at hk
    simpa [FilesResult.events] using hk
  have hk0 : kProj evs0 = pickDoneSeq pre :=
    processCommits_ok_kProj cfg.intent env.step pre 0 evs0 r0 fs0 hpre
  have hkfetch : kProj fevs = [] := by
    have hk := fetchCommitsLoop_events_kProj env.fetchCommitOk
      env.fetchCommitStderr cfg.commits
    rw [hfetch] at hk
    simpa [FetchResult.events] using hk
  rw [hex]
  refine ⟨rfl, rfl, hmem, ?_, ?_⟩
  · simp [habort]
  · rw [kProj_cons_none Event.created _ rfl, kProj_append, kProj_append,
      kProj_append, kProj_append, kProj_cons_cherryPick, hkf, hk0, hkfetch]
    simp [kProj, keyProj]

/-- A conflicted commit iteration whose only file resolves below the
accept threshold. -/
def stepConflictLow : CommitStep :=
  { cherryPickOk := false, cherryPickStderr := "conflict", conflictFiles := ["a.txt"]
    fileEnv := fun _ =>
      { readOk := true, content := oneRegionContent, oracleThrows := false
        resolvedContent := "merged", explanation := "e", confidence := mkRat 5 10 }
    commitOk := true, commitStderr := "", postStatusClean := false }

/-- Clean first commit, unresolvable conflict on the second. -/
def envOneConflict : SandboxEnv :=
  { envAllOk with step := fun i => if i = 0 then stepClean else stepConflictLow }

/-- C2 witness: on the concrete run the first commit lands, the second
aborts on `a.txt`, nothing after the failed pick appears in the
skeleton, and the error names the file. -/
theorem executeBackport_unresolved_conflict_aborts_witness :
    (executeBackport cfgTwo envOneConflict).1.success = false ∧
    (executeBackport cfgTwo envOneConflict).1.error =
      some ("Could not resolve merge conflict in " ++ "a.txt"
        ++ ". Manual intervention required.") ∧
    "a.txt" ∈ (envOneConflict.step 1).conflictFiles ∧
    Event.abortCherryPick ∈ (executeBackport cfgTwo envOneConflict).2 ∧
    kProj (executeBackport cfgTwo envOneConflict).2 =
      pickDoneSeq [{ sha := "aaa1111", message := "first" }] ++
        [KeyEv.pick "bbb2222"] :=
  executeBackport_unresolved_conflict_aborts cfgTwo envOneConflict
    [{ sha := "aaa1111", message := "first" }]
    { sha := "bbb2222", message := "second" } []
    rfl rfl rfl rfl rfl rfl rfl rfl rfl

/-! ## Claim theorems: push tail -/

/-- The executor never reads the exit status of the stale-branch delete
(the source only logs which case occurred), so neither result nor trace
depends on it. -/
theorem executeBackport_ignores_deleteRemoteOk (cfg : BackportConfig)
    (env : SandboxEnv) (b : Bool) :
    executeBackport cfg { env with deleteRemoteOk := b } = executeBackport cfg env := by
  cases env
  rfl

/-- A `sandbox.stop()` failure in the `finally` block is swallowed, so
neither result nor trace depends on it. -/
theorem executeBackport_ignores_stopFails (cfg : BackportConfig)
    (env : SandboxEnv) (b : Bool) :
    executeBackport cfg { env with stopFails := b } = executeBackport cfg env := by
  cases env
  rfl

/-- C8: every successful run ends by renaming the working branch to the
canonical backport branch name, deleting the stale same-named remote
branch, and pushing, in that order; the delete's exit status never
affects the outcome; and under the modelled remote semantics the
delete-then-push pair succeeds whether or not a stale branch from a
prior failed attempt exists — the push step is idempotent under
re-execution. -/
theorem executeBackport_push_idempotent (cfg : BackportConfig) (env : SandboxEnv)
    (res : BackportExecutionResult) (trace : List Event)
    (h : executeBackport cfg env = (res, trace)) (hs : res.success = true) :
    (∃ l, trace = l ++
      [Event.renameBranch (backportBranch cfg),
       Event.deleteRemote (backportBranch cfg),
       Event.push (backportBranch cfg), Event.stop]) ∧
    (∀ b : Bool,
      executeBackport cfg { env with deleteRemoteOk := b } = (res, trace)) ∧
    (∀ s : Bool, deleteThenPush s = true) := by
  refine ⟨?_, fun b => (executeBackport_ignores_deleteRemoteOk cfg env b).trans h,
    fun s => by cases s <;> rfl⟩
  unfold executeBackport at h
  split at h
  · cases h; simp [mkFail] at hs
  · cases h
    obtain ⟨fevs, evs2, n, fs, _, _, _, _, hevs⟩ :=
      sandboxPhase_success cfg env (sandboxPhase cfg env).1 (sandboxPhase cfg env).2
        rfl hs
    refine ⟨Event.created ::
      ([Event.clone, Event.fetchBranch, Event.checkout] ++ fevs ++ evs2), ?_⟩
    rw [hevs]
    simp

/-- C8 witness at a concrete successful run: the trace tail and the
delete-status independence, plus the remote model at both initial
states. -/
theorem executeBackport_push_idempotent_witness :
    (∃ l, (executeBackport cfgTwo envAllOk).2 = l ++
      [Event.renameBranch (backportBranch cfgTwo),
       Event.deleteRemote (backportBranch cfgTwo),
       Event.push (backportBranch cfgTwo), Event.stop]) ∧
    executeBackport cfgTwo { envAllOk with deleteRemoteOk := true } =
      ((executeBackport cfgTwo envAllOk).1, (executeBackport cfgTwo envAllOk).2) ∧
    deleteThenPush true = true ∧ deleteThenPush false = true := by
  have h := executeBackport_push_idempotent cfgTwo envAllOk
    (executeBackport cfgTwo envAllOk).1 (executeBackport cfgTwo envAllOk).2
    rfl (by decide)
  exact ⟨h.1, h.2.1 true, h.2.2 true, h.2.2 false⟩

/-! ## Claim theorems: total failure interface -/

/-- Every `sandboxPhase` result is well-formed: success carries a branch
name, failure carries an error message. -/
theorem sandboxPhase_result_defined (cfg : BackportConfig) (env : SandboxEnv) :
    ((sandboxPhase cfg env).1.success = true →
      ((sandboxPhase cfg env).1.branch).isSome = true) ∧
    ((sandboxPhase cfg env).1.success = false →
      ((sandboxPhase cfg env).1.error).isSome = true) := by
  unfold sandboxPhase
  split
  · simp [mkFail]
  · split
    · simp [mkFail]
    · split
      · simp [mkFail]
      · split
        · simp [mkFail]
        · split
          · simp [mkFail]
          · split
            · simp [mkFail]
            · simp

/-- C10: `executeBackport` is a total function of its environment — every
behavior of the sandbox, git and the oracle, exceptions included, is a
point of `SandboxEnv`, and at each of them it returns a defined result:
success always carries a branch name, failure always carries an error
message; once the sandbox was created the trace always ends by stopping
it, and a `stop()` failure changes nothing, so cleanup never masks the
outcome. -/
theorem executeBackport_total_interface (cfg : BackportConfig) (env : SandboxEnv) :
    ((executeBackport cfg env).1.success = true →
      ((executeBackport cfg env).1.branch).isSome = true) ∧
    ((executeBackport cfg env).1.success = false →
      ((executeBackport cfg env).1.error).isSome = true) ∧
    (env.createOk = true → Event.stop ∈ (executeBackport cfg env).2) ∧
    (∀ b : Bool,
      executeBackport cfg { env with stopFails := b } = executeBackport cfg env) := by
  have hwf := sandboxPhase_result_defined cfg env
  rcases Bool.eq_false_or_eq_true env.createOk with hcr | hcr
  · have hred : executeBackport cfg env =
        ((sandboxPhase cfg env).1,
          Event.created :: ((sandboxPhase cfg env).2 ++ [Event.stop])) := by
      unfold executeBackport
      rw [hcr]
      simp
    rw [hred]
    exact ⟨hwf.1, hwf.2, fun _ => by simp,
      fun b => (executeBackport_ignores_stopFails cfg env b).trans hred⟩
  · have hred : executeBackport cfg env = (mkFail env.createErrMsg, []) := by
      unfold executeBackport
      rw [hcr]
      simp
    rw [hred]
    refine ⟨by simp [mkFail], by simp [mkFail], ?_,
      fun b => (executeBackport_ignores_stopFails cfg env b).trans hred⟩
    intro hh
    rw [hcr] at hh
    exact absurd hh (by decide)

/-- Environment whose sandbox creation throws. -/
def envNoCreate : SandboxEnv :=
  { envAllOk with createOk := false, createErrMsg := "boom" }

/-- C10 witness: a successful run has a branch and stops the sandbox, a
creation failure still yields a defined error, and flipping the
`stop()`-failure flag changes nothing. -/
theorem executeBackport_total_interface_witness :
    ((executeBackport cfgTwo envAllOk).1.branch).isSome = true ∧
    Event.stop ∈ (executeBackport cfgTwo envAllOk).2 ∧
    ((executeBackport cfgTwo envNoCreate).1.error).isSome = true ∧
    executeBackport cfgTwo { envAllOk with stopFails := true } =
      executeBackport cfgTwo envAllOk := by
  have h := executeBackport_total_interface cfgTwo envAllOk
  have h2 := executeBackport_total_interface cfgTwo envNoCreate
  exact ⟨h.1 (by decide), h.2.2.1 rfl, h2.2.1 (by decide), h.2.2.2 true⟩

end AgentBackport
